import Mathlib

/-!
Verification of the BGG analysis dashboard (three pages: mechanic trends,
category trends, game search) against its natural-language specification.
The data layer, filtering, aggregation, sorting, pagination and
selection-synchronization logic of the three page scripts is shallowly
embedded below; ratings are modelled as exact rationals and the Impact
formula over the reals.
-/

namespace BGG

/-- A joined row of the trend pages' base query (`load_data` in
`app_mechanic_trends.py` / `app_category_trends.py`): one row per
(game, mechanic) pair, resp. per (game, category-domain) pair.  `tag` is the
mechanic name on the mechanic page and the category domain on the category
page.  `year_published IS NOT NULL` is enforced by the SQL, so `year` is
total; the joined rank value may still be missing. -/
structure Row where
  bgg_id : Nat
  year : Int
  rating_geek : Option ℚ
  overall_rank : Option Nat
  tag : String
deriving DecidableEq

/-- Pandas semantics of `df["overall_rank"] <= rank_limit`: a missing value
compares false. -/
def rankWithin (rank : Option Nat) (limit : Nat) : Bool :=
  match rank with
  | none => false
  | some k => k ≤ limit

/-- The sidebar filter shared verbatim by both trend pages
(`render_sidebar`, `app_mechanic_trends.py` lines 168-172, and
`app_category_trends.py` lines 232-236):
`(df["overall_rank"] <= rank_limit) & (df["year"] >= lo) & (df["year"] <= hi)`. -/
def filterByRankYear (rows : List Row) (rank_limit : Nat) (yr : Int × Int) : List Row :=
  rows.filter fun r =>
    rankWithin r.overall_rank rank_limit && decide (yr.1 ≤ r.year) && decide (r.year ≤ yr.2)

/-- `games` table row, restricted to the columns the verified logic reads. -/
structure Game where
  bgg_id : Nat
  year_published : Option Int
  rating_geek : Option ℚ
deriving DecidableEq

/-- `ranks` table row: `(bgg_id, domain, rank)`. -/
structure RankRow where
  bgg_id : Nat
  domain : String
  rank : Option Nat
deriving DecidableEq

/-- A row of one of the many-to-many name tables (`mechanics`,
`categories`). -/
structure TagRow where
  bgg_id : Nat
  name : String
deriving DecidableEq

/-- The relational file consumed by the game-search page. -/
structure DB where
  games : List Game
  ranks : List RankRow
  mechanics : List TagRow
  categories : List TagRow

/-- The year filter of `_build_game_query` (`app_game_search.py`):
`None` (no condition), the special option `"<0"`, or an exact year. -/
inductive YearFilter
  | all
  | negative
  | exact (y : Int)
deriving DecidableEq

/-- SQL semantics of the optional year clause: `g.year_published <= 0`
resp. `g.year_published = ?`; a NULL `year_published` makes either
comparison non-true. -/
def yearCond (yf : YearFilter) (g : Game) : Bool :=
  match yf with
  | .all => true
  | .negative =>
    match g.year_published with
    | none => false
    | some y => y ≤ 0
  | .exact y =>
    match g.year_published with
    | none => false
    | some z => z = y

/-- `EXISTS (SELECT 1 FROM ranks r2 WHERE r2.bgg_id = g.bgg_id AND
r2.domain = ? AND r2.rank IS NOT NULL)`, added only when a rank domain was
selected. -/
def domainCond (db : DB) (dom : Option String) (g : Game) : Bool :=
  match dom with
  | none => true
  | some d =>
    db.ranks.any fun r => decide (r.bgg_id = g.bgg_id) && decide (r.domain = d) && r.rank.isSome

/-- `EXISTS (SELECT 1 FROM mechanics m WHERE m.bgg_id = g.bgg_id AND
m.name IN (...))`, added only when the mechanics multiselect is non-empty. -/
def mechanicsCond (db : DB) (sel : List String) (g : Game) : Bool :=
  match sel with
  | [] => true
  | _ => db.mechanics.any fun m => decide (m.bgg_id = g.bgg_id) && decide (m.name ∈ sel)

/-- `EXISTS (SELECT 1 FROM categories c WHERE c.bgg_id = g.bgg_id AND
c.name IN (...))`, added only when the themes multiselect is non-empty. -/
def themesCond (db : DB) (sel : List String) (g : Game) : Bool :=
  match sel with
  | [] => true
  | _ => db.categories.any fun c => decide (c.bgg_id = g.bgg_id) && decide (c.name ∈ sel)

/-- The conjunction of WHERE clauses assembled by `_build_game_query`
(base clause `1=1`, then the optional year / rank-domain / mechanics /
themes conditions). -/
def buildGameWhere (db : DB) (mechanics : List String) (rank_domain : Option String)
    (themes : List String) (yf : YearFilter) (g : Game) : Bool :=
  true && yearCond yf g && domainCond db rank_domain g &&
    mechanicsCond db mechanics g && themesCond db themes g

/-- The smallest element of a list of ranks, `none` on the empty list
(SQL `MIN` aggregate over the non-NULL values). -/
def minRank : List Nat → Option Nat
  | [] => none
  | k :: ks => some (ks.foldl min k)

/-- The `LEFT JOIN (SELECT bgg_id, MIN(rank) FROM ranks WHERE
domain = 'overall' GROUP BY bgg_id)` subquery of `query_games_page`:
the overall rank attached to each result row. -/
def overallRankOf (db : DB) (gid : Nat) : Option Nat :=
  minRank
    (((db.ranks.filter fun r => decide (r.bgg_id = gid) && decide (r.domain = "overall"))).filterMap
      RankRow.rank)

/-- A result row of `query_games_page`: the game columns plus the joined
overall rank. -/
structure ResultRow where
  game : Game
  overall_rank : Option Nat
deriving DecidableEq

/-- The set of games satisfying the WHERE clause of `query_games_page`
(each game appears at most once: both LEFT JOINs are grouped by
`bgg_id`), before ORDER BY / LIMIT. -/
def searchMatches (db : DB) (mechanics : List String) (rank_domain : Option String)
    (themes : List String) (yf : YearFilter) : List ResultRow :=
  (db.games.filter (buildGameWhere db mechanics rank_domain themes yf)).map fun g =>
    { game := g, overall_rank := overallRankOf db g.bgg_id }

/-- Claim C1, amended part: every row surviving the trend pages' sidebar
filter satisfies `overall_rank <= rank_limit` (the rank being present) and
`min_year <= year <= max_year`, for every slider setting in the configured
ranges. -/
theorem C1_trend_filter_bounds (rows : List Row) (rank_limit : Nat) (yr : Int × Int)
    (hr1 : 500 ≤ rank_limit) (hr2 : rank_limit ≤ 28000)
    (hy3 : (1995 : Int) ≤ yr.1) (hy4 : yr.2 ≤ 2025)
    (r : Row) (hr : r ∈ filterByRankYear rows rank_limit yr) :
    (∃ k, r.overall_rank = some k ∧ k ≤ rank_limit) ∧ yr.1 ≤ r.year ∧ r.year ≤ yr.2 := by
  rw [filterByRankYear, List.mem_filter] at hr
  obtain ⟨-, hb⟩ := hr
  simp only [Bool.and_eq_true, decide_eq_true_eq] at hb
  obtain ⟨⟨hrank, hy1⟩, hy2⟩ := hb
  refine ⟨?_, hy1, hy2⟩
  cases hk : r.overall_rank with
  | none => rw [hk] at hrank; simp [rankWithin] at hrank
  | some k =>
    rw [hk] at hrank
    simp only [rankWithin, decide_eq_true_eq] at hrank
    exact ⟨k, rfl, hrank⟩

/-- Witness for C1: a concrete row passing the filter at the default
slider values indeed satisfies the bounds. -/
theorem C1_trend_filter_bounds_witness :
    (500 ≤ 10000 ∧ 10000 ≤ 28000 ∧ (1995 : Int) ≤ 2005 ∧ (2025 : Int) ≤ 2025) ∧
    ((∃ k, (Row.mk 174430 2017 (some 8) (some 1) "Campaign").overall_rank = some k ∧
        k ≤ 10000) ∧
      (2005 : Int) ≤ 2017 ∧ (2017 : Int) ≤ 2025) :=
  ⟨by norm_num,
    C1_trend_filter_bounds [Row.mk 174430 2017 (some 8) (some 1) "Campaign"]
      10000 (2005, 2025) (by norm_num) (by norm_num) (by norm_num) (by norm_num)
      (Row.mk 174430 2017 (some 8) (some 1) "Campaign") (by decide)⟩

/-- Counterexample to claim C1 as stated: the game-search page
(`_build_game_query` / `query_games_page`) applies no rank-limit and no
year-range condition, so with all filters empty it returns a game whose
overall rank is 20000 and whose publication year is 1990, violating
`overall_rank <= 10000` and `2005 <= year <= 2025` (the default settings,
which lie inside the configured ranges of the claim). -/
theorem C1_search_page_counterexample :
    ResultRow.mk (Game.mk 7 (some 1990) (some 6)) (some 20000) ∈
      searchMatches (DB.mk [Game.mk 7 (some 1990) (some 6)]
        [RankRow.mk 7 "overall" (some 20000)] [] []) [] none [] .all ∧
    ¬ ((20000 : Nat) ≤ 10000) ∧ ¬ ((2005 : Int) ≤ 1990) := by
  refine ⟨?_, by norm_num, by norm_num⟩
  decide


/-- The rows of one chart grouping: `groupby(["year", "mechanic"])` on the
mechanic page, `groupby(["year", "category"])` on the category page. -/
def groupRows (rows : List Row) (y : Int) (t : String) : List Row :=
  rows.filter fun r => decide (r.year = y) && decide (r.tag = t)

/-- `count=("bgg_id", "nunique")`: the number of distinct game identifiers
of a group. -/
def groupCount (g : List Row) : Nat :=
  ((g.map Row.bgg_id).dedup).length

/-- The geek ratings of a group that are present (pandas `mean` skips
missing values). -/
def groupGeeks (g : List Row) : List ℚ :=
  g.filterMap Row.rating_geek

/-- `avg_geek=("rating_geek", "mean")`: the arithmetic mean of the
non-missing geek ratings, missing when no rating is present. -/
def groupAvgGeek (g : List Row) : Option ℚ :=
  if groupGeeks g = [] then none
  else some ((groupGeeks g).sum / (groupGeeks g).length)

/-- The Impact column of `compute_impact` (`app_mechanic_trends.py` line
104): `avg_geek * np.log(count + 1)`, missing when the average is. -/
noncomputable def groupImpact (g : List Row) : Option ℝ :=
  Option.map (fun q : ℚ => (q : ℝ) * Real.log (groupCount g + 1)) (groupAvgGeek g)

/-- The Impact formula as computed by `compute_impact`
(`app_mechanic_trends.py` line 104). -/
noncomputable def impact_compute (count : Nat) (avg_geek : ℝ) : ℝ :=
  avg_geek * Real.log (count + 1)

/-- The Impact value plotted by the mechanic-trends line chart
(`render_chart`, `app_mechanic_trends.py` line 255). -/
noncomputable def impact_mech_chart (count : Nat) (avg_geek : ℝ) : ℝ :=
  avg_geek * Real.log (count + 1)

/-- The Impact metric shown in the mechanic drill-down panel
(`app_mechanic_trends.py` line 553). -/
noncomputable def impact_mech_drill (count : Nat) (avg_geek : ℝ) : ℝ :=
  avg_geek * Real.log (count + 1)

/-- The Impact value plotted by the category-trends line chart
(`render_chart`, `app_category_trends.py` line 257). -/
noncomputable def impact_cat_chart (count : Nat) (avg_geek : ℝ) : ℝ :=
  avg_geek * Real.log (count + 1)

/-- The Impact value plotted by the Top-20-mechanics bar chart
(`render_mechanic_bar_chart`, `app_category_trends.py` line 314). -/
noncomputable def impact_cat_bar (game_count : Nat) (avg_geek : ℝ) : ℝ :=
  avg_geek * Real.log (game_count + 1)

/-- Claim C7: the specification, like the NOTE at
`app_mechanic_trends.py` lines 107-108, requires the Impact formula to be
implemented in exactly one place, but the code re-implements it inline at
four further sites.  The five embeddings, one per source site, are proved
to compute equal values on the same group inputs: the duplication is a
slip against the stated single-definition requirement, but it has not made
results diverge between pages. -/
theorem C7_impact_sites_agree (count : Nat) (avg_geek : ℝ) :
    impact_compute count avg_geek = impact_mech_chart count avg_geek ∧
    impact_compute count avg_geek = impact_mech_drill count avg_geek ∧
    impact_compute count avg_geek = impact_cat_chart count avg_geek ∧
    impact_compute count avg_geek = impact_cat_bar count avg_geek ∧
    impact_compute count avg_geek = avg_geek * Real.log (count + 1) :=
  ⟨rfl, rfl, rfl, rfl, rfl⟩


/-- Numeric bounds on the natural logarithm of 51, obtained from the
Taylor series of log at 51/32 and the known bounds on log 2. -/
theorem log51_bounds : 3.9301 < Real.log 51 ∧ Real.log 51 < 3.9326 := by
  have t : |(-(19 / 32) : ℝ)| = 19 / 32 := by
    rw [abs_neg, abs_of_nonneg] <;> norm_num
  have z := Real.abs_log_sub_add_sum_range_le (x := -(19 / 32)) (by rw [t]; norm_num) 16
  rw [t] at z
  have h1 : (1 : ℝ) - -(19 / 32) = 51 / 32 := by norm_num
  rw [h1] at z
  simp_rw [Finset.sum_range_succ] at z
  norm_num at z
  obtain ⟨hlo, hhi⟩ := abs_le.1 z
  have hm : Real.log 51 = Real.log (51 / 32) + 5 * Real.log 2 := by
    rw [show (51 : ℝ) = 51 / 32 * 2 ^ 5 by norm_num,
      Real.log_mul (by norm_num) (by positivity), Real.log_pow]
    push_cast
    ring_nf
  have l2g := Real.log_two_gt_d9
  have l2l := Real.log_two_lt_d9
  constructor
  · rw [hm]; nlinarith [hlo, l2g]
  · rw [hm]; nlinarith [hhi, l2l]

/-- Claim C2, amended part: for a non-empty grouping, `count` is the number
of distinct game identifiers, `avg_geek` is the mean of the non-missing
geek ratings, `impact = avg_geek * ln (count + 1)` exactly, and a grouping
with `count = 50` and `avg_geek = 7` has impact `7 * ln 51`, which is
within 1/100 of 27.52. -/
theorem C2_group_stats (rows : List Row) (y : Int) (t : String)
    (h : groupRows rows y t ≠ []) :
    groupCount (groupRows rows y t) = ((groupRows rows y t).map Row.bgg_id).dedup.length ∧
    (∀ q : ℚ, groupAvgGeek (groupRows rows y t) = some q →
      q * (groupGeeks (groupRows rows y t)).length = (groupGeeks (groupRows rows y t)).sum ∧
      groupImpact (groupRows rows y t) =
        some ((q : ℝ) * Real.log (groupCount (groupRows rows y t) + 1))) ∧
    (∀ g : List Row, groupCount g = 50 → groupAvgGeek g = some 7 →
      groupImpact g = some ((7 : ℝ) * Real.log 51) ∧
      |(7 : ℝ) * Real.log 51 - 27.52| < 1 / 100) := by
  refine ⟨rfl, fun q hq => ?_, fun g hc ha => ?_⟩
  · have hne : groupGeeks (groupRows rows y t) ≠ [] := by
      intro he
      unfold groupAvgGeek at hq
      rw [if_pos he] at hq
      exact Option.noConfusion hq
    have hlen : ((groupGeeks (groupRows rows y t)).length : ℚ) ≠ 0 :=
      Nat.cast_ne_zero.mpr (List.length_pos.mpr hne).ne'
    have hq' : (groupGeeks (groupRows rows y t)).sum /
        ((groupGeeks (groupRows rows y t)).length : ℚ) = q := by
      unfold groupAvgGeek at hq
      rw [if_neg hne] at hq
      exact Option.some.inj hq
    refine ⟨?_, ?_⟩
    · rw [← hq']
      field_simp
    · unfold groupImpact
      rw [hq]
      rfl
  · refine ⟨?_, ?_⟩
    · simp only [groupImpact, ha, hc, Option.map_some']
      norm_num
    · rw [abs_lt]
      obtain ⟨hlo, hhi⟩ := log51_bounds
      constructor <;> nlinarith [hlo, hhi]

/-- Witness for C2 at a concrete one-row grouping. -/
theorem C2_group_stats_witness :
    groupRows [Row.mk 1 2020 (some 7) (some 1) "Worker Placement"] 2020 "Worker Placement" ≠ [] ∧
    (groupCount (groupRows [Row.mk 1 2020 (some 7) (some 1) "Worker Placement"]
          2020 "Worker Placement") =
        ((groupRows [Row.mk 1 2020 (some 7) (some 1) "Worker Placement"]
          2020 "Worker Placement").map Row.bgg_id).dedup.length ∧
      (∀ q : ℚ, groupAvgGeek (groupRows [Row.mk 1 2020 (some 7) (some 1) "Worker Placement"]
          2020 "Worker Placement") = some q →
        q * (groupGeeks (groupRows [Row.mk 1 2020 (some 7) (some 1) "Worker Placement"]
            2020 "Worker Placement")).length =
          (groupGeeks (groupRows [Row.mk 1 2020 (some 7) (some 1) "Worker Placement"]
            2020 "Worker Placement")).sum ∧
        groupImpact (groupRows [Row.mk 1 2020 (some 7) (some 1) "Worker Placement"]
            2020 "Worker Placement") =
          some ((q : ℝ) * Real.log (groupCount (groupRows
            [Row.mk 1 2020 (some 7) (some 1) "Worker Placement"] 2020 "Worker Placement") + 1))) ∧
      (∀ g : List Row, groupCount g = 50 → groupAvgGeek g = some 7 →
        groupImpact g = some ((7 : ℝ) * Real.log 51) ∧
        |(7 : ℝ) * Real.log 51 - 27.52| < 1 / 100)) :=
  ⟨by decide,
    C2_group_stats [Row.mk 1 2020 (some 7) (some 1) "Worker Placement"]
      2020 "Worker Placement" (by decide)⟩

/-- A concrete grouping of 50 distinct games, each with geek rating 7. -/
def exampleGroup : List Row :=
  (List.range 50).map fun i => Row.mk i 2020 (some 7) (some (i + 1)) "Worker Placement"

/-- Counterexample to claim C2 as stated: the grouping with `count = 50`
and `avg_geek = 7` has impact `7 * ln 51 = 27.5228...`, which is not within
1/100 of the claimed approximation 27.49 (it is 27.52 to two decimals). -/
theorem C2_approx_counterexample :
    groupCount exampleGroup = 50 ∧
    groupAvgGeek exampleGroup = some 7 ∧
    groupImpact exampleGroup = some ((7 : ℝ) * Real.log 51) ∧
    ¬ |(7 : ℝ) * Real.log 51 - 27.49| ≤ 1 / 100 := by
  have hids : exampleGroup.map Row.bgg_id = List.range 50 := by
    unfold exampleGroup
    rw [List.map_map]
    show List.map (fun i : ℕ => i) (List.range 50) = List.range 50
    simp
  have hc : groupCount exampleGroup = 50 := by
    unfold groupCount
    rw [hids, List.dedup_eq_self.mpr (List.nodup_range 50), List.length_range]
  have hgeeks : groupGeeks exampleGroup = List.replicate 50 (7 : ℚ) := by
    unfold groupGeeks exampleGroup
    rw [List.filterMap_map]
    show List.filterMap (fun _ => some 7) (List.range 50) = _
    rw [show (fun _ : ℕ => some (7 : ℚ)) = some ∘ (fun _ : ℕ => (7 : ℚ)) from rfl,
      List.filterMap_eq_map, List.map_const', List.length_range]
  have ha : groupAvgGeek exampleGroup = some 7 := by
    unfold groupAvgGeek
    rw [hgeeks, if_neg (by simp)]
    norm_num [List.sum_replicate, nsmul_eq_mul]
  refine ⟨hc, ha, ?_, ?_⟩
  · simp only [groupImpact, ha, hc, Option.map_some']
    norm_num
  · intro hab
    obtain ⟨hlo, -⟩ := log51_bounds
    have h2 := (abs_le.mp hab).2
    nlinarith [hlo, h2]

/-- Primary sort key: ascending overall rank, missing ranks last (pandas
`na_position = 'last'`; SQL `CASE WHEN ro.rank IS NULL THEN 1 ELSE 0 END
ASC, ro.rank ASC`). -/
def rkey (r : Option Nat) : WithTop Nat :=
  match r with
  | none => ⊤
  | some k => (k : WithTop Nat)

/-- Secondary sort key: geek rating descending, missing ratings last. -/
def gkey (g : Option ℚ) : WithBot ℚ :=
  match g with
  | none => ⊥
  | some q => (q : WithBot ℚ)

/-- The listing order on (rank key, geek key) pairs: strictly smaller rank
key first, ties broken by larger geek key. -/
def keyLe (a b : WithTop Nat × WithBot ℚ) : Prop :=
  a.1 < b.1 ∨ (a.1 = b.1 ∧ b.2 ≤ a.2)

theorem keyLe_refl (a : WithTop Nat × WithBot ℚ) : keyLe a a :=
  Or.inr ⟨rfl, le_refl _⟩

theorem keyLe_total (a b : WithTop Nat × WithBot ℚ) : keyLe a b ∨ keyLe b a := by
  rcases lt_trichotomy a.1 b.1 with h | h | h
  · exact Or.inl (Or.inl h)
  · rcases le_total a.2 b.2 with hg | hg
    · exact Or.inr (Or.inr ⟨h.symm, hg⟩)
    · exact Or.inl (Or.inr ⟨h, hg⟩)
  · exact Or.inr (Or.inl h)

theorem keyLe_trans (a b c : WithTop Nat × WithBot ℚ) :
    keyLe a b → keyLe b c → keyLe a c := by
  rintro (h1 | ⟨h1, g1⟩) (h2 | ⟨h2, g2⟩)
  · exact Or.inl (h1.trans h2)
  · exact Or.inl (h2 ▸ h1)
  · exact Or.inl (h1 ▸ h2)
  · exact Or.inr ⟨h1.trans h2, g2.trans g1⟩

/-- Sort key of a trend-page row. -/
def rowKey (x : Row) : WithTop Nat × WithBot ℚ :=
  (rkey x.overall_rank, gkey x.rating_geek)

/-- `sort_values(["overall_rank", "rating_geek"], ascending=[True, False])`
as a relation on trend-page rows. -/
def rowLe (x y : Row) : Prop :=
  keyLe (rowKey x) (rowKey y)

/-- Sort key of a search result row. -/
def resKey (x : ResultRow) : WithTop Nat × WithBot ℚ :=
  (rkey x.overall_rank, gkey x.game.rating_geek)

/-- The `ORDER BY` of `query_games_page`: `(ro.rank IS NULL) ASC,
ro.rank ASC, g.rating_geek DESC` as a relation on search result rows. -/
def resLe (x y : ResultRow) : Prop :=
  keyLe (resKey x) (resKey y)

instance : DecidableRel rowLe := fun x y => by
  unfold rowLe keyLe
  infer_instance

instance : DecidableRel resLe := fun x y => by
  unfold resLe keyLe
  infer_instance

instance : IsTotal Row rowLe :=
  ⟨fun a b => keyLe_total (rowKey a) (rowKey b)⟩

instance : IsTrans Row rowLe :=
  ⟨fun a b c => keyLe_trans (rowKey a) (rowKey b) (rowKey c)⟩

instance : IsTotal ResultRow resLe :=
  ⟨fun a b => keyLe_total (resKey a) (resKey b)⟩

instance : IsTrans ResultRow resLe :=
  ⟨fun a b c => keyLe_trans (resKey a) (resKey b) (resKey c)⟩

/-- The (stable) sort applied to every trend-page game listing. -/
def sortListing (l : List Row) : List Row :=
  List.insertionSort rowLe l

/-- The (stable) sort applied to the search-page result listing. -/
def sortSearch (l : List ResultRow) : List ResultRow :=
  List.insertionSort resLe l

/-- Example game A of the specification: rank 1, geek 8.0. -/
def exA : Row := Row.mk 101 2020 (some 8) (some 1) "Alpha"

/-- Example game B of the specification: no rank, geek 9.0. -/
def exB : Row := Row.mk 102 2020 (some 9) none "Alpha"

/-- The rating 7.5 as an explicit reduced fraction (numerator 15,
denominator 2). -/
def sevenPointFive : ℚ := ⟨15, 2, by norm_num, by norm_num⟩

theorem sevenPointFive_eq : sevenPointFive = 15 / 2 := by
  rw [sevenPointFive]
  rw [Rat.mk_eq_divInt, Rat.divInt_eq_div]
  norm_num

/-- Example game C of the specification: rank 2, geek 7.5. -/
def exC : Row := Row.mk 103 2020 (some sevenPointFive) (some 2) "Alpha"

/-- Everything SQLite guarantees for the search page's `ORDER BY` (no
documented tie order): the output is some permutation of the matches that
is sorted under the listing rule. -/
def sqlOrderedBy (found out : List ResultRow) : Prop :=
  out.Perm found ∧ List.Sorted resLe out

/-- Claim C3, amended: every trend-page game listing is stably sorted
under the rule (rank ascending with missing ranks last, then geek rating
descending) — pandas' multi-column sort is a stable lexsort — with the
specification's example A(rank 1, geek 8), B(no rank, geek 9),
C(rank 2, geek 7.5) ordered A, C, B; the search-page listing satisfies
the same ordering rule, of which `sortSearch` is one admissible outcome,
but SQLite specifies no order among tied rows, so stability is not
asserted there. -/
theorem C3_listing_sort_rule (l : List Row) (s : List ResultRow) (a b : Row)
    (hab : rowLe a b) (hsub : List.Sublist [a, b] l) :
    List.Sorted rowLe (sortListing l) ∧ (sortListing l).Perm l ∧
    List.Sublist [a, b] (sortListing l) ∧
    sqlOrderedBy s (sortSearch s) ∧
    sortListing [exA, exB, exC] = [exA, exC, exB] :=
  ⟨List.sorted_insertionSort rowLe l, List.perm_insertionSort rowLe l,
    List.pair_sublist_insertionSort hab hsub,
    ⟨List.perm_insertionSort resLe s, List.sorted_insertionSort resLe s⟩,
    by decide⟩

/-- Witness for C3 on the specification's three example games. -/
theorem C3_listing_sort_rule_witness :
    (rowLe exA exC ∧ List.Sublist [exA, exC] [exA, exB, exC]) ∧
    (List.Sorted rowLe (sortListing [exA, exB, exC]) ∧
      (sortListing [exA, exB, exC]).Perm [exA, exB, exC] ∧
      List.Sublist [exA, exC] (sortListing [exA, exB, exC]) ∧
      sqlOrderedBy [] (sortSearch []) ∧
      sortListing [exA, exB, exC] = [exA, exC, exB]) :=
  ⟨⟨by decide, by decide⟩,
    C3_listing_sort_rule [exA, exB, exC] [] exA exC (by decide) (by decide)⟩

/-- A search result row tied with `tiedY` on both sort keys. -/
def tiedX : ResultRow := ResultRow.mk (Game.mk 1 (some 2019) (some 7)) (some 4)

/-- A search result row tied with `tiedX` on both sort keys. -/
def tiedY : ResultRow := ResultRow.mk (Game.mk 2 (some 2018) (some 7)) (some 4)

/-- Counterexample to claim C3 as stated: `tiedX` and `tiedY` are distinct
rows tied on both sort keys, and the reversed listing [tiedY, tiedX] also
satisfies everything the search page's SQL `ORDER BY` guarantees for the
matches [tiedX, tiedY], while breaking the tied pair's input order — so
the search-page listing cannot be asserted stable. -/
theorem C3_search_stability_counterexample :
    resLe tiedX tiedY ∧ resLe tiedY tiedX ∧ tiedX ≠ tiedY ∧
    sqlOrderedBy [tiedX, tiedY] [tiedY, tiedX] ∧
    ¬ List.Sublist [tiedX, tiedY] [tiedY, tiedX] := by
  refine ⟨by decide, by decide, by decide, ⟨by decide, by decide⟩, ?_⟩
  intro h
  have heq := h.eq_of_length (by decide)
  exact absurd heq (by decide)

/-- `drop_duplicates(subset=["bgg_id"])` with pandas' default
`keep='first'`: retain, in order, the first row of each game identifier. -/
def dedupById : List Row → List Row
  | [] => []
  | r :: rs => r :: ((dedupById rs).filter fun x => decide (x.bgg_id ≠ r.bgg_id))

/-- The drill-down game listing of the trend pages
(`app_mechanic_trends.py` lines 570-575, `app_category_trends.py` lines
440-444): sort by rank / rating, then drop duplicate game identifiers. -/
def drillListing (rows : List Row) : List Row :=
  dedupById (sortListing rows)

theorem rowLe_refl (x : Row) : rowLe x x :=
  keyLe_refl (rowKey x)

theorem mem_of_mem_dedupById : ∀ {l : List Row} {x : Row}, x ∈ dedupById l → x ∈ l := by
  intro l
  induction l with
  | nil => intro x hx; simp [dedupById] at hx
  | cons r rs ih =>
    intro x hx
    simp only [dedupById, List.mem_cons] at hx
    rcases hx with rfl | hx'
    · exact List.mem_cons_self _ _
    · exact List.mem_cons_of_mem _ (ih (List.mem_filter.mp hx').1)

theorem nodup_ids_dedupById (l : List Row) : ((dedupById l).map Row.bgg_id).Nodup := by
  induction l with
  | nil => simp [dedupById]
  | cons r rs ih =>
    simp only [dedupById, List.map_cons, List.nodup_cons]
    constructor
    · intro hmem
      rw [List.mem_map] at hmem
      obtain ⟨x, hx, hid⟩ := hmem
      have hne : x.bgg_id ≠ r.bgg_id := by simpa using (List.mem_filter.mp hx).2
      exact hne hid
    · exact ih.sublist (List.Sublist.map _ (List.filter_sublist _))

theorem dedupById_find : ∀ {l : List Row} {x : Row}, x ∈ dedupById l →
    l.find? (fun z => decide (z.bgg_id = x.bgg_id)) = some x := by
  intro l
  induction l with
  | nil => intro x hx; simp [dedupById] at hx
  | cons r rs ih =>
    intro x hx
    simp only [dedupById, List.mem_cons] at hx
    rcases hx with rfl | hx'
    · rw [List.find?_cons_of_pos _ (by simp)]
    · have hx'' := List.mem_filter.mp hx'
      have hne : x.bgg_id ≠ r.bgg_id := by simpa using hx''.2
      rw [List.find?_cons_of_neg _ (by simpa using fun h => hne h.symm)]
      exact ih hx''.1

theorem sorted_find_min {l : List Row} (hs : List.Sorted rowLe l) {p : Row → Bool} {a : Row}
    (hf : l.find? p = some a) : ∀ x ∈ l, p x = true → rowLe a x := by
  induction l with
  | nil => simp at hf
  | cons b bs ih =>
    by_cases hb : p b = true
    · rw [List.find?_cons_of_pos _ hb] at hf
      obtain rfl := Option.some.inj hf
      intro x hx hpx
      rcases List.mem_cons.mp hx with rfl | hx'
      · exact rowLe_refl x
      · exact (List.sorted_cons.mp hs).1 x hx'
    · rw [List.find?_cons_of_neg _ hb] at hf
      intro x hx hpx
      rcases List.mem_cons.mp hx with rfl | hx'
      · exact absurd hpx hb
      · exact ih (List.sorted_cons.mp hs).2 hf x hx' hpx

theorem dedupById_covers : ∀ {l : List Row} {x : Row}, x ∈ l →
    ∃ r, r ∈ dedupById l ∧ r.bgg_id = x.bgg_id := by
  intro l
  induction l with
  | nil => intro x hx; simp at hx
  | cons r rs ih =>
    intro x hx
    rcases List.mem_cons.mp hx with rfl | hx'
    · exact ⟨x, by simp [dedupById], rfl⟩
    · obtain ⟨r', hr', hid⟩ := ih hx'
      by_cases hsame : r'.bgg_id = r.bgg_id
      · exact ⟨r, by simp [dedupById], by rw [← hsame, hid]⟩
      · refine ⟨r', ?_, hid⟩
        simp only [dedupById, List.mem_cons]
        right
        exact List.mem_filter.mpr ⟨hr', by simpa using hsame⟩

/-- Claim C10: in the drill-down listing each game identifier appears at
most once; the row retained for a game is the first row with that
identifier in the sorted list, hence sorts at or before every row of that
game; and every game of the input keeps exactly one card. -/
theorem C10_drilldown_unique (rows : List Row) :
    ((drillListing rows).map Row.bgg_id).Nodup ∧
    (∀ r ∈ drillListing rows,
      (sortListing rows).find? (fun z => decide (z.bgg_id = r.bgg_id)) = some r ∧
      ∀ x ∈ sortListing rows, x.bgg_id = r.bgg_id → rowLe r x) ∧
    (∀ x ∈ rows, ∃ r, r ∈ drillListing rows ∧ r.bgg_id = x.bgg_id) := by
  refine ⟨nodup_ids_dedupById _, fun r hr => ?_, fun x hx => ?_⟩
  · have hf := dedupById_find hr
    refine ⟨hf, fun z hz hid => ?_⟩
    exact sorted_find_min (List.sorted_insertionSort rowLe rows) hf z hz (by simpa using hid)
  · have hx' : x ∈ sortListing rows := by
      rw [sortListing]
      exact (List.mem_insertionSort rowLe).mpr hx
    exact dedupById_covers hx'

/-- Witness for C10 on a concrete listing with a duplicated game. -/
theorem C10_drilldown_unique_witness :
    ((drillListing [Row.mk 1 2020 (some 9) (some 5) "Alpha",
        Row.mk 1 2020 (some 9) (some 3) "Beta"]).map Row.bgg_id).Nodup ∧
    (∀ r ∈ drillListing [Row.mk 1 2020 (some 9) (some 5) "Alpha",
        Row.mk 1 2020 (some 9) (some 3) "Beta"],
      (sortListing [Row.mk 1 2020 (some 9) (some 5) "Alpha",
          Row.mk 1 2020 (some 9) (some 3) "Beta"]).find?
        (fun z => decide (z.bgg_id = r.bgg_id)) = some r ∧
      ∀ x ∈ sortListing [Row.mk 1 2020 (some 9) (some 5) "Alpha",
          Row.mk 1 2020 (some 9) (some 3) "Beta"],
        x.bgg_id = r.bgg_id → rowLe r x) ∧
    (∀ x ∈ [Row.mk 1 2020 (some 9) (some 5) "Alpha",
        Row.mk 1 2020 (some 9) (some 3) "Beta"],
      ∃ r, r ∈ drillListing [Row.mk 1 2020 (some 9) (some 5) "Alpha",
          Row.mk 1 2020 (some 9) (some 3) "Beta"] ∧ r.bgg_id = x.bgg_id) :=
  C10_drilldown_unique [Row.mk 1 2020 (some 9) (some 5) "Alpha",
    Row.mk 1 2020 (some 9) (some 3) "Beta"]

/-- The session state of the mechanic-trends page touched by the
pagination logic. -/
structure MechPage where
  rank_limit : Nat
  year_range : Int × Int
  last_point : Option (Int × String)
  games_show_n : Nat
deriving DecidableEq

/-- `app_mechanic_trends.py` lines 536-540: on every rerun, if the current
drill-down point differs from `_last_selected_point`, record the new point
and reset `games_show_n` to 10; otherwise leave the state alone. -/
def mechSyncPoint (s : MechPage) (pt : Int × String) : MechPage :=
  if s.last_point = some pt then s
  else { s with last_point := some pt, games_show_n := 10 }

/-- A rerun after moving the sidebar sliders of the mechanic page: the
widget values change, then the drill-down reset logic (lines 536-540) runs
with the re-resolved drill-down point. -/
def mechSetFilters (s : MechPage) (limit : Nat) (yr : Int × Int) (pt : Int × String) :
    MechPage :=
  mechSyncPoint { s with rank_limit := limit, year_range := yr } pt

/-- `show_n = min(st.session_state.games_show_n, total_games)`
(`app_mechanic_trends.py` line 583). -/
def shownCount (games_show_n total : Nat) : Nat :=
  min games_show_n total

/-- Lines 589-592: the show-more button is rendered only while
`show_n < total_games`; clicking it sets
`games_show_n = min(total_games, games_show_n + 10)`. -/
def mechShowMoreClick (s : MechPage) (total : Nat) : MechPage :=
  if shownCount s.games_show_n total < total then
    { s with games_show_n := min total (s.games_show_n + 10) }
  else s

/-- The displayed drill-down list (lines 570-586): the first `show_n` rows
of the sorted, deduplicated match list. -/
def mechDisplayed (rows : List Row) (s : MechPage) (y : Int) (m : String) : List Row :=
  let sorted := drillListing (groupRows (filterByRankYear rows s.rank_limit s.year_range) y m)
  sorted.take (shownCount s.games_show_n sorted.length)

/-- The session state of the category-trends page touched by the
pagination logic. -/
structure CatPage where
  rank_limit : Nat
  year_range : Int × Int
  selected_category : String
  games_show_n : Nat
deriving DecidableEq

/-- A rerun of the category page after changing the sliders or the
category selectbox (`app_category_trends.py`): only the widget values are
replaced; `games_show_n_cat` is initialized once (lines 450-451) and never
reset by any filter change. -/
def catSetFilters (s : CatPage) (limit : Nat) (yr : Int × Int) (cat : String) : CatPage :=
  { s with rank_limit := limit, year_range := yr, selected_category := cat }

/-- `app_category_trends.py` lines 458-461: the category-page show-more
button. -/
def catShowMoreClick (s : CatPage) (total : Nat) : CatPage :=
  if shownCount s.games_show_n total < total then
    { s with games_show_n := min total (s.games_show_n + 10) }
  else s

/-- `app_game_search.py` lines 443-444: submitting the search form sets
`results_show_n` back to 10, whatever it was. -/
def searchSubmitShowN (n : Nat) : Nat :=
  10

/-- Claim C5: the shown count starts from counter value 10, a show-more
click advances the shown count by exactly 10 capped at the total, the
shown count never exceeds the total, a click when everything is already
shown leaves the state unchanged, and the displayed list is always the
`shown`-prefix of the sorted match list. -/
theorem C5_incremental_reveal (s : MechPage) (total : Nat) (rows : List Row)
    (y : Int) (m : String) :
    shownCount 10 total = min 10 total ∧
    shownCount s.games_show_n total ≤ total ∧
    shownCount (mechShowMoreClick s total).games_show_n total =
      (if shownCount s.games_show_n total < total
        then min (shownCount s.games_show_n total + 10) total
        else shownCount s.games_show_n total) ∧
    (shownCount s.games_show_n total = total → mechShowMoreClick s total = s) ∧
    mechDisplayed rows s y m =
      (drillListing (groupRows (filterByRankYear rows s.rank_limit s.year_range) y m)).take
        (shownCount s.games_show_n
          (drillListing (groupRows (filterByRankYear rows s.rank_limit s.year_range) y m)).length) := by
  refine ⟨rfl, Nat.min_le_right _ _, ?_, ?_, rfl⟩
  · unfold mechShowMoreClick shownCount
    split
    · simp only [min_assoc, min_self]
      omega
    · rfl
  · intro h
    unfold mechShowMoreClick
    rw [if_neg (by omega)]

/-- Witness for C5 at a concrete page state. -/
theorem C5_incremental_reveal_witness :
    shownCount 10 25 = min 10 25 ∧
    shownCount (MechPage.mk 10000 (2005, 2025) none 10).games_show_n 25 ≤ 25 ∧
    shownCount (mechShowMoreClick (MechPage.mk 10000 (2005, 2025) none 10) 25).games_show_n 25 =
      (if shownCount (MechPage.mk 10000 (2005, 2025) none 10).games_show_n 25 < 25
        then min (shownCount (MechPage.mk 10000 (2005, 2025) none 10).games_show_n 25 + 10) 25
        else shownCount (MechPage.mk 10000 (2005, 2025) none 10).games_show_n 25) ∧
    (shownCount (MechPage.mk 10000 (2005, 2025) none 10).games_show_n 25 = 25 →
      mechShowMoreClick (MechPage.mk 10000 (2005, 2025) none 10) 25 =
        MechPage.mk 10000 (2005, 2025) none 10) ∧
    mechDisplayed [] (MechPage.mk 10000 (2005, 2025) none 10) 2020 "Alpha" =
      (drillListing (groupRows (filterByRankYear [] 10000 (2005, 2025)) 2020 "Alpha")).take
        (shownCount (MechPage.mk 10000 (2005, 2025) none 10).games_show_n
          (drillListing (groupRows (filterByRankYear [] 10000 (2005, 2025)) 2020 "Alpha")).length) :=
  C5_incremental_reveal (MechPage.mk 10000 (2005, 2025) none 10) 25 [] 2020 "Alpha"

/-- Counterexample to claim C4 as stated: after one show-more click
(counter 20), changing the rank-limit filter on the category page leaves
the shown counter at 20, and the same holds on the mechanic page when the
drill-down point is unchanged; the shown count is then 20, not 10. -/
theorem C4_filter_reset_counterexample :
    (catSetFilters (catShowMoreClick (CatPage.mk 10000 (2005, 2025) "strategygames" 10) 30)
        5000 (2005, 2025) "strategygames").games_show_n = 20 ∧
    (mechSetFilters (MechPage.mk 10000 (2005, 2025) (some (2020, "Alpha")) 20)
        5000 (2005, 2025) (2020, "Alpha")).games_show_n = 20 ∧
    shownCount 20 25 ≠ 10 := by
  refine ⟨?_, ?_, ?_⟩ <;> decide

/-- Claim C4, amended: changing a filter does not in general reset the
shown count.  On the mechanic page a rerun resets it to 10 exactly when
the drill-down point changed; on the category page no filter change ever
resets it; on the search page submitting the form resets it to 10. -/
theorem C4_reset_behavior (s : MechPage) (c : CatPage) (limit : Nat) (yr : Int × Int)
    (pt : Int × String) (cat : String) (n : Nat) :
    (mechSetFilters s limit yr pt).games_show_n =
      (if s.last_point = some pt then s.games_show_n else 10) ∧
    (catSetFilters c limit yr cat).games_show_n = c.games_show_n ∧
    searchSubmitShowN n = 10 := by
  refine ⟨?_, rfl, rfl⟩
  unfold mechSetFilters mechSyncPoint
  split
  · rfl
  · rfl

/-- The drill-down selection state of the mechanic page
(`detail_year` / `detail_mechanic`), possibly not yet set. -/
structure DrillSel where
  year : Option Int
  mech : Option String
deriving DecidableEq

/-- Descending order on (mechanic, impact score) pairs. -/
def impactGe (a b : String × ℚ) : Prop :=
  b.2 ≤ a.2

instance : DecidableRel impactGe := fun a b => by
  unfold impactGe
  infer_instance

instance : IsTotal (String × ℚ) impactGe :=
  ⟨fun a b => le_total b.2 a.2⟩

instance : IsTrans (String × ℚ) impactGe :=
  ⟨fun _ _ _ h1 h2 => le_trans h2 h1⟩

/-- `app_mechanic_trends.py` lines 477-482: the impact table restricted to
the currently available mechanics, sorted by impact descending, as a list
of mechanic names.  Impact scores are modelled as exact rationals. -/
def impactRankedMechs (impacts : List (String × ℚ)) (avail : List String) : List String :=
  ((impacts.filter fun p => decide (p.1 ∈ avail)).insertionSort impactGe).map Prod.fst

/-- `app_mechanic_trends.py` lines 484-532: resolve the drill-down
selection from an optional chart click (applied per component when the
click carries a year and a non-empty mechanic), falling back per component
to the previous selection when still available and otherwise to the
defaults: the last of the (ascending) available years, resp. the head of
the impact-ranked available mechanics. -/
def syncSelection (click : Option (Int × String)) (prev : DrillSel)
    (availYears : List Int) (availMechs : List String)
    (impactRanked : List String) : Int × String :=
  let p1 : DrillSel :=
    match click with
    | some (cy, cm) =>
      if cm ≠ "" then
        { year := if cy ∈ availYears then some cy else prev.year,
          mech := if cm ∈ availMechs then some cm else prev.mech }
      else prev
    | none => prev
  let y : Int :=
    match p1.year with
    | some yv => if yv ∈ availYears then yv else availYears.getLast?.getD 2020
    | none => availYears.getLast?.getD 2020
  let m : String :=
    match p1.mech with
    | some mv => if mv ∈ availMechs then mv else impactRanked.headD (availMechs.headD "")
    | none => impactRanked.headD (availMechs.headD "")
  (y, m)

/-- `app_category_trends.py` lines 405-419: the category drill-down keeps
the previously selected category when still available and otherwise falls
back to the first (alphabetically smallest) available category; the chart
click state returned by `render_chart` is never consulted. -/
def catSelectCategory (_click : Option (Int × String)) (prev : Option String)
    (availCats : List String) : String :=
  match prev with
  | some p => if p ∈ availCats then p else availCats.headD ""
  | none => availCats.headD ""

theorem sorted_le_getLastD : ∀ {l : List Int}, l.Sorted (fun a b => a ≤ b) →
    ∀ x ∈ l, x ≤ l.getLast?.getD 2020 := by
  intro l
  induction l with
  | nil => intro _ x hx; simp at hx
  | cons a t ih =>
    intro hs x hx
    rcases List.mem_cons.mp hx with rfl | hx'
    · cases t with
      | nil => simp
      | cons b t' =>
        have hab : x ≤ b := (List.sorted_cons.mp hs).1 b (List.mem_cons_self _ _)
        have hb := ih (List.sorted_cons.mp hs).2 b (List.mem_cons_self _ _)
        rw [List.getLast?_cons_cons]
        exact le_trans hab hb
    · cases t with
      | nil => simp at hx'
      | cons b t' =>
        rw [List.getLast?_cons_cons]
        exact ih (List.sorted_cons.mp hs).2 x hx'

theorem getLastD_mem : ∀ {l : List Int}, l ≠ [] → l.getLast?.getD 2020 ∈ l := by
  intro l
  induction l with
  | nil => intro h; exact absurd rfl h
  | cons a t ih =>
    intro _
    cases t with
    | nil => simp
    | cons b t' =>
      rw [List.getLast?_cons_cons]
      exact List.mem_cons_of_mem _ (ih (by simp))

/-- Counterexample to claim C6 as stated: on the category-trends page the
chart click state is never consulted, so a click on (2020, "Wargames") —
with 2020 among the chart's years and "Wargames" among the available
categories — does not override the drill-down selection, which stays at
the previously selected "Abstract". -/
theorem C6_click_ignored_counterexample :
    catSelectCategory (some (2020, "Wargames")) (some "Abstract") ["Abstract", "Wargames"] =
      "Abstract" ∧
    "Abstract" ≠ "Wargames" ∧
    "Wargames" ∈ ["Abstract", "Wargames"] ∧
    (2020 : Int) ∈ [(2020 : Int)] := by
  refine ⟨?_, ?_, ?_, ?_⟩ <;> decide

/-- The head of a sorted non-empty list is a member and a lower bound: the
alphabetically first available category when the list is the page's
`sorted(...)` category list. -/
theorem sorted_headD_min {l : List String} (hs : l.Sorted (fun a b => a ≤ b))
    (hne : l ≠ []) : l.headD "" ∈ l ∧ ∀ c ∈ l, l.headD "" ≤ c := by
  cases l with
  | nil => exact absurd rfl hne
  | cons h t =>
    refine ⟨List.mem_cons_self _ _, fun c hc => ?_⟩
    rcases List.mem_cons.mp hc with rfl | hc'
    · exact le_refl _
    · exact (List.sorted_cons.mp hs).1 c hc'

/-- Claim C6, amended: on the mechanic page, a click carrying a year and a
non-empty mechanic overrides each component of the drill-down selection
that is present in the corresponding available set — both components when
both are present, and only the available one when the other is not, the
missing component falling back to a still-available previous value;
without a click a still-available previous selection is retained; the
default selection is the most recent available year together with the
highest-impact available mechanic.  On the category page chart clicks are
ignored; a still-available previous category is kept, and otherwise (no
previous category, or one no longer available) the selection falls back to
the head of the sorted available-category list, its alphabetically first
element. -/
theorem C6_selection_sync (prev : DrillSel) (cy py : Int) (cm pm : String)
    (availYears : List Int) (availMechs : List String) (impacts : List (String × ℚ))
    (click : Option (Int × String)) (pcat : String) (cats : List String)
    (cyBad : Int) (cmBad pcat2 : String)
    (hcy : cy ∈ availYears) (hcm : cm ∈ availMechs) (hcm0 : cm ≠ "")
    (hpy : py ∈ availYears) (hpm : pm ∈ availMechs)
    (hsorted : availYears.Sorted (fun a b => a ≤ b))
    (hcat : pcat ∈ cats)
    (hcyBad : cyBad ∉ availYears) (hcmBad : cmBad ∉ availMechs) (hcmBad0 : cmBad ≠ "")
    (hpcat2 : pcat2 ∉ cats) (hcats : cats.Sorted (fun a b => a ≤ b)) :
    syncSelection (some (cy, cm)) prev availYears availMechs
      (impactRankedMechs impacts availMechs) = (cy, cm) ∧
    syncSelection none (DrillSel.mk (some py) (some pm)) availYears availMechs
      (impactRankedMechs impacts availMechs) = (py, pm) ∧
    (∀ yv ∈ availYears, yv ≤ (syncSelection none (DrillSel.mk none none) availYears availMechs
      (impactRankedMechs impacts availMechs)).1) ∧
    (syncSelection none (DrillSel.mk none none) availYears availMechs
      (impactRankedMechs impacts availMechs)).1 ∈ availYears ∧
    ((impacts.filter fun p => decide (p.1 ∈ availMechs)) ≠ [] →
      ∃ v : ℚ,
        ((syncSelection none (DrillSel.mk none none) availYears availMechs
            (impactRankedMechs impacts availMechs)).2, v) ∈
          (impacts.filter fun p => decide (p.1 ∈ availMechs)) ∧
        ∀ p ∈ (impacts.filter fun p => decide (p.1 ∈ availMechs)), p.2 ≤ v) ∧
    catSelectCategory click (some pcat) cats = pcat ∧
    syncSelection (some (cy, cmBad)) (DrillSel.mk (some py) (some pm)) availYears availMechs
      (impactRankedMechs impacts availMechs) = (cy, pm) ∧
    syncSelection (some (cyBad, cm)) (DrillSel.mk (some py) (some pm)) availYears availMechs
      (impactRankedMechs impacts availMechs) = (py, cm) ∧
    catSelectCategory click none cats = cats.headD "" ∧
    catSelectCategory click (some pcat2) cats = cats.headD "" ∧
    (cats.headD "" ∈ cats ∧ ∀ c ∈ cats, cats.headD "" ≤ c) := by
  refine ⟨?_, ?_, ?_, ?_, ?_, ?_, ?_, ?_, ?_, ?_, ?_⟩
  · simp [syncSelection, hcy, hcm, hcm0]
  · simp [syncSelection, hpy, hpm]
  · intro yv hyv
    have h1 : (syncSelection none (DrillSel.mk none none) availYears availMechs
        (impactRankedMechs impacts availMechs)).1 = availYears.getLast?.getD 2020 := rfl
    rw [h1]
    exact sorted_le_getLastD hsorted yv hyv
  · have h1 : (syncSelection none (DrillSel.mk none none) availYears availMechs
        (impactRankedMechs impacts availMechs)).1 = availYears.getLast?.getD 2020 := rfl
    rw [h1]
    exact getLastD_mem (List.ne_nil_of_mem hcy)
  · intro hne
    have h2 : (syncSelection none (DrillSel.mk none none) availYears availMechs
        (impactRankedMechs impacts availMechs)).2 =
        (impactRankedMechs impacts availMechs).headD (availMechs.headD "") := rfl
    have hperm := List.perm_insertionSort impactGe
      (impacts.filter fun p => decide (p.1 ∈ availMechs))
    have hsortedL := List.sorted_insertionSort impactGe
      (impacts.filter fun p => decide (p.1 ∈ availMechs))
    cases hL : (impacts.filter fun p => decide (p.1 ∈ availMechs)).insertionSort impactGe with
    | nil =>
      rw [hL] at hperm
      exact absurd hperm.symm.eq_nil hne
    | cons hd rest =>
      refine ⟨hd.2, ?_, ?_⟩
      · have hm2 : (syncSelection none (DrillSel.mk none none) availYears availMechs
            (impactRankedMechs impacts availMechs)).2 = hd.1 := by
          rw [h2]
          unfold impactRankedMechs
          rw [hL]
          rfl
        rw [hm2]
        have : hd ∈ (impacts.filter fun p => decide (p.1 ∈ availMechs)) := by
          rw [← hperm.mem_iff, hL]
          exact List.mem_cons_self _ _
        simpa using this
      · intro p hp
        have hpL : p ∈ hd :: rest := by
          rw [← hL, List.mem_insertionSort]
          exact hp
        rcases List.mem_cons.mp hpL with rfl | hp'
        · exact le_refl _
        · rw [hL] at hsortedL
          exact (List.sorted_cons.mp hsortedL).1 p hp'
  · simp [catSelectCategory, hcat]
  · simp [syncSelection, hcy, hcmBad, hcmBad0, hpm]
  · simp [syncSelection, hcyBad, hcm, hcm0, hpy]
  · rfl
  · simp [catSelectCategory, hpcat2]
  · exact sorted_headD_min hcats (List.ne_nil_of_mem hcat)

/-- Witness for C6 at concrete selection data. -/
theorem C6_selection_sync_witness :
    ((2010 : Int) ∈ [(2005 : Int), 2010] ∧ "DB" ∈ ["DB", "WP"] ∧ "DB" ≠ "" ∧
      (2005 : Int) ∈ [(2005 : Int), 2010] ∧ "WP" ∈ ["DB", "WP"] ∧
      List.Sorted (fun a b => a ≤ b) [(2005 : Int), 2010] ∧ "W" ∈ ["W"] ∧
      (1999 : Int) ∉ [(2005 : Int), 2010] ∧ "ZZ" ∉ ["DB", "WP"] ∧ "ZZ" ≠ "" ∧
      "Z" ∉ ["W"] ∧ List.Sorted (fun a b : String => a ≤ b) ["W"]) ∧
    (syncSelection (some (2010, "DB")) (DrillSel.mk none none) [(2005 : Int), 2010] ["DB", "WP"]
      (impactRankedMechs [("WP", 20), ("DB", 15)] ["DB", "WP"]) = (2010, "DB") ∧
    syncSelection none (DrillSel.mk (some 2005) (some "WP")) [(2005 : Int), 2010] ["DB", "WP"]
      (impactRankedMechs [("WP", 20), ("DB", 15)] ["DB", "WP"]) = (2005, "WP") ∧
    (∀ yv ∈ [(2005 : Int), 2010],
      yv ≤ (syncSelection none (DrillSel.mk none none) [(2005 : Int), 2010] ["DB", "WP"]
        (impactRankedMechs [("WP", 20), ("DB", 15)] ["DB", "WP"])).1) ∧
    (syncSelection none (DrillSel.mk none none) [(2005 : Int), 2010] ["DB", "WP"]
      (impactRankedMechs [("WP", 20), ("DB", 15)] ["DB", "WP"])).1 ∈ [(2005 : Int), 2010] ∧
    (([("WP", (20 : ℚ)), ("DB", 15)].filter fun p => decide (p.1 ∈ ["DB", "WP"])) ≠ [] →
      ∃ v : ℚ,
        ((syncSelection none (DrillSel.mk none none) [(2005 : Int), 2010] ["DB", "WP"]
            (impactRankedMechs [("WP", 20), ("DB", 15)] ["DB", "WP"])).2, v) ∈
          ([("WP", (20 : ℚ)), ("DB", 15)].filter fun p => decide (p.1 ∈ ["DB", "WP"])) ∧
        ∀ p ∈ ([("WP", (20 : ℚ)), ("DB", 15)].filter fun p => decide (p.1 ∈ ["DB", "WP"])),
          p.2 ≤ v) ∧
    catSelectCategory none (some "W") ["W"] = "W" ∧
    syncSelection (some (2010, "ZZ")) (DrillSel.mk (some 2005) (some "WP"))
      [(2005 : Int), 2010] ["DB", "WP"]
      (impactRankedMechs [("WP", 20), ("DB", 15)] ["DB", "WP"]) = (2010, "WP") ∧
    syncSelection (some (1999, "DB")) (DrillSel.mk (some 2005) (some "WP"))
      [(2005 : Int), 2010] ["DB", "WP"]
      (impactRankedMechs [("WP", 20), ("DB", 15)] ["DB", "WP"]) = (2005, "DB") ∧
    catSelectCategory none none ["W"] = ["W"].headD "" ∧
    catSelectCategory none (some "Z") ["W"] = ["W"].headD "" ∧
    (["W"].headD "" ∈ ["W"] ∧ ∀ c ∈ ["W"], ["W"].headD "" ≤ c)) :=
  ⟨⟨by decide, by decide, by decide, by decide, by decide, by decide, by decide,
      by decide, by decide, by decide, by decide, by simp⟩,
    C6_selection_sync (DrillSel.mk none none) 2010 2005 "DB" "WP" [(2005 : Int), 2010]
      ["DB", "WP"] [("WP", 20), ("DB", 15)] none "W" ["W"] 1999 "ZZ" "Z"
      (by decide) (by decide) (by decide) (by decide) (by decide) (by decide) (by decide)
      (by decide) (by decide) (by decide) (by decide) (by simp)⟩

/-- The specification's reading of the search filters (spec-side
definition, stated for comparison with the query assembled from the code):
a game matches when it satisfies every active filter conjointly; each
many-to-many filter (mechanics, themes) is satisfied exactly when the game
has at least one row in the corresponding relation whose name is among the
selected values; the category filter requires a non-missing rank row of
the selected domain; the year filter is the SQL year condition. -/
def specSearchSat (db : DB) (mech_sel : List String) (d : String)
    (theme_sel : List String) (yf : YearFilter) (g : Game) : Prop :=
  (∃ m ∈ db.mechanics, m.bgg_id = g.bgg_id ∧ m.name ∈ mech_sel) ∧
  (∃ c ∈ db.categories, c.bgg_id = g.bgg_id ∧ c.name ∈ theme_sel) ∧
  (∃ r ∈ db.ranks, r.bgg_id = g.bgg_id ∧ r.domain = d ∧ r.rank.isSome = true) ∧
  yearCond yf g = true

/-- Claim C8: with non-empty mechanics and themes selections and a
selected category domain, a game is returned by the search query exactly
when it is in the games table and satisfies all active filters
conjointly. -/
theorem C8_search_query_iff (db : DB) (mech_sel : List String) (d : String)
    (theme_sel : List String) (yf : YearFilter) (g : Game)
    (hm : mech_sel ≠ []) (ht : theme_sel ≠ []) :
    (g ∈ db.games.filter (buildGameWhere db mech_sel (some d) theme_sel yf) ↔
      g ∈ db.games ∧ specSearchSat db mech_sel d theme_sel yf g) ∧
    (ResultRow.mk g (overallRankOf db g.bgg_id) ∈
        searchMatches db mech_sel (some d) theme_sel yf ↔
      g ∈ db.games.filter (buildGameWhere db mech_sel (some d) theme_sel yf)) := by
  obtain ⟨m0, ms, rfl⟩ := List.exists_cons_of_ne_nil hm
  obtain ⟨t0, ts, rfl⟩ := List.exists_cons_of_ne_nil ht
  constructor
  · rw [List.mem_filter]
    simp only [buildGameWhere, mechanicsCond, themesCond, domainCond, specSearchSat,
      Bool.true_and, Bool.and_eq_true, List.any_eq_true, decide_eq_true_eq,
      Option.isSome_iff_exists]
    tauto
  · constructor
    · intro h
      rw [searchMatches, List.mem_map] at h
      obtain ⟨a, ha, heq⟩ := h
      obtain ⟨rfl, -⟩ := ResultRow.mk.inj heq
      exact ha
    · intro h
      rw [searchMatches, List.mem_map]
      exact ⟨g, h, rfl⟩

/-- Witness for C8 on a one-game database with all three filters active. -/
theorem C8_search_query_iff_witness :
    (["Deck Building"] ≠ ([] : List String) ∧ ["Pirates"] ≠ ([] : List String)) ∧
    ((Game.mk 1 (some 2019) (some 7) ∈
        (DB.mk [Game.mk 1 (some 2019) (some 7)] [RankRow.mk 1 "strategygames" (some 5)]
          [TagRow.mk 1 "Deck Building"] [TagRow.mk 1 "Pirates"]).games.filter
          (buildGameWhere
            (DB.mk [Game.mk 1 (some 2019) (some 7)] [RankRow.mk 1 "strategygames" (some 5)]
              [TagRow.mk 1 "Deck Building"] [TagRow.mk 1 "Pirates"])
            ["Deck Building"] (some "strategygames") ["Pirates"] .all) ↔
      Game.mk 1 (some 2019) (some 7) ∈
        (DB.mk [Game.mk 1 (some 2019) (some 7)] [RankRow.mk 1 "strategygames" (some 5)]
          [TagRow.mk 1 "Deck Building"] [TagRow.mk 1 "Pirates"]).games ∧
      specSearchSat
        (DB.mk [Game.mk 1 (some 2019) (some 7)] [RankRow.mk 1 "strategygames" (some 5)]
          [TagRow.mk 1 "Deck Building"] [TagRow.mk 1 "Pirates"])
        ["Deck Building"] "strategygames" ["Pirates"] .all (Game.mk 1 (some 2019) (some 7))) ∧
    (ResultRow.mk (Game.mk 1 (some 2019) (some 7))
        (overallRankOf
          (DB.mk [Game.mk 1 (some 2019) (some 7)] [RankRow.mk 1 "strategygames" (some 5)]
            [TagRow.mk 1 "Deck Building"] [TagRow.mk 1 "Pirates"])
          (Game.mk 1 (some 2019) (some 7)).bgg_id) ∈
        searchMatches
          (DB.mk [Game.mk 1 (some 2019) (some 7)] [RankRow.mk 1 "strategygames" (some 5)]
            [TagRow.mk 1 "Deck Building"] [TagRow.mk 1 "Pirates"])
          ["Deck Building"] (some "strategygames") ["Pirates"] .all ↔
      Game.mk 1 (some 2019) (some 7) ∈
        (DB.mk [Game.mk 1 (some 2019) (some 7)] [RankRow.mk 1 "strategygames" (some 5)]
          [TagRow.mk 1 "Deck Building"] [TagRow.mk 1 "Pirates"]).games.filter
          (buildGameWhere
            (DB.mk [Game.mk 1 (some 2019) (some 7)] [RankRow.mk 1 "strategygames" (some 5)]
              [TagRow.mk 1 "Deck Building"] [TagRow.mk 1 "Pirates"])
            ["Deck Building"] (some "strategygames") ["Pirates"] .all))) :=
  ⟨⟨by decide, by decide⟩,
    C8_search_query_iff
      (DB.mk [Game.mk 1 (some 2019) (some 7)] [RankRow.mk 1 "strategygames" (some 5)]
        [TagRow.mk 1 "Deck Building"] [TagRow.mk 1 "Pirates"])
      ["Deck Building"] "strategygames" ["Pirates"] .all (Game.mk 1 (some 2019) (some 7))
      (by decide) (by decide)⟩

/-- The observable outcomes of the mechanic page's `main()` up to chart
rendering. -/
inductive MechRender where
  | missingDbWarning
  | emptyFilterInfo
  | noMechanicsWarning
  | emptyChartDataWarning
  | chart (points : List (Int × String))
deriving DecidableEq

/-- The control flow of `main()` in `app_mechanic_trends.py` up to the
chart: a missing database file makes `load_data` return an empty frame and
the page warns and returns (line 28-29, 419-421); an empty filtered set
shows an info message and returns (lines 442-444); an empty mechanic
selection warns and returns (lines 448-450); empty grouped chart data
warns and returns (lines 459-461); otherwise the chart is rendered on the
grouped (year, mechanic) points. -/
def mechMain : Option (List Row) → Nat → Int × Int → List String → MechRender
  | none, _, _, _ => .missingDbWarning
  | some rows, rank_limit, yr, selected =>
    if rows = [] then .missingDbWarning
    else if filterByRankYear rows rank_limit yr = [] then .emptyFilterInfo
    else if selected = [] then .noMechanicsWarning
    else if (((filterByRankYear rows rank_limit yr).filter fun r =>
        decide (r.tag ∈ selected)).map fun r => (r.year, r.tag)).dedup = [] then
      .emptyChartDataWarning
    else
      .chart (((filterByRankYear rows rank_limit yr).filter fun r =>
        decide (r.tag ∈ selected)).map fun r => (r.year, r.tag)).dedup

/-- Claim C9: with the database file missing the page shows a warning and
stops (no chart, no exception: `mechMain` is a total function); with a
non-empty database whose filtered set is empty, an informational message
is shown and no chart is rendered. -/
theorem C9_error_handling (rows : List Row) (limit : Nat) (yr : Int × Int)
    (sel : List String) (hrows : rows ≠ [])
    (hempty : filterByRankYear rows limit yr = []) :
    mechMain none limit yr sel = .missingDbWarning ∧
    (∀ pts, mechMain none limit yr sel ≠ .chart pts) ∧
    mechMain (some rows) limit yr sel = .emptyFilterInfo ∧
    (∀ pts, mechMain (some rows) limit yr sel ≠ .chart pts) := by
  have h2 : mechMain (some rows) limit yr sel = .emptyFilterInfo := by
    simp only [mechMain]
    rw [if_neg hrows, if_pos hempty]
  refine ⟨rfl, fun pts => by simp [mechMain], h2, fun pts => ?_⟩
  rw [h2]
  simp

/-- Witness for C9: a single row whose overall rank is missing is removed
by the filter, so the page shows the empty-result info message. -/
theorem C9_error_handling_witness :
    ([Row.mk 1 2020 (some 8) none "Alpha"] ≠ ([] : List Row) ∧
      filterByRankYear [Row.mk 1 2020 (some 8) none "Alpha"] 10000 (2005, 2025) = []) ∧
    (mechMain none 10000 (2005, 2025) ["Alpha"] = .missingDbWarning ∧
      (∀ pts, mechMain none 10000 (2005, 2025) ["Alpha"] ≠ .chart pts) ∧
      mechMain (some [Row.mk 1 2020 (some 8) none "Alpha"]) 10000 (2005, 2025) ["Alpha"] =
        .emptyFilterInfo ∧
      (∀ pts, mechMain (some [Row.mk 1 2020 (some 8) none "Alpha"]) 10000 (2005, 2025)
        ["Alpha"] ≠ .chart pts)) :=
  ⟨⟨by decide, by decide⟩,
    C9_error_handling [Row.mk 1 2020 (some 8) none "Alpha"] 10000 (2005, 2025) ["Alpha"]
      (by decide) (by decide)⟩

end BGG
